import Mathlib

/-!
Verification development for the tool-execution runtime of the
`local_ai_agent` repository: the security-policy engine for filesystem
paths and URLs, the generic tool execution engine with its statistics
bookkeeping, the filesystem tool operations, and the bounded tool-calling
orchestration loop.  Python sources embedded here:
`backend/tools/base_tool.py`, `backend/tools/file_system_tool.py`,
`backend/tools/web_search_tool.py`, `backend/services/agent_service.py`.

Strings are modelled by Lean `String`; all string functions used by the
embedding are written with structural recursion over `List Char` so that
concrete instances evaluate inside the kernel.  Durations are modelled as
natural numbers supplied by the caller (the embedding of `time.time()`
measurements).
-/

namespace LocalAIAgent

/-! ## String helpers (Python `in`, `startswith`, `lower`, `split`) -/

/-- Lower-case a string character by character (Python `str.lower`,
restricted to the ASCII range, which is all the policy tables use). -/
def lowerStr (s : String) : String := String.mk (s.data.map Char.toLower)

/-- Contiguous-sublist test on character lists. -/
def charsInfixOf (needle : List Char) : List Char → Bool
  | [] => needle.isEmpty
  | c :: rest => List.isPrefixOf needle (c :: rest) || charsInfixOf needle rest

/-- Python `needle in hay` substring test. -/
def strContains (hay needle : String) : Bool :=
  charsInfixOf needle.data hay.data

/-- Python `hay.startswith(pre)`. -/
def strStartsWith (hay pre : String) : Bool :=
  List.isPrefixOf pre.data hay.data

/-- Split a character list on a separator character; empty fields are kept
(mirrors Python `str.split(sep)`). -/
def splitOnChar (sep : Char) (cur : List Char) : List Char → List (List Char)
  | [] => [cur.reverse]
  | c :: rest =>
    if c = sep then cur.reverse :: splitOnChar sep [] rest
    else splitOnChar sep (c :: cur) rest

/-- String membership in a list of strings (Python `x in list`). -/
def memStr (s : String) (l : List String) : Bool :=
  l.any (fun t => t.data == s.data)

/-! ## POSIX path resolution (`pathlib.Path.resolve`)

`Path(p).resolve()` makes the path absolute against the working directory
and eliminates `.` and `..` segments lexically (symbolic links are out of
scope of the model).  The working directory is given as its list of
already-normalized segments. -/

/-- Process path segments left to right keeping a reversed stack of the
segments seen so far; `..` pops (and is a no-op at the root), `.` and
empty segments vanish. -/
def normalizeSegs (acc : List String) : List String → List String
  | [] => acc.reverse
  | s :: rest =>
    if s = "" then normalizeSegs acc rest
    else if s = "." then normalizeSegs acc rest
    else if s = ".." then normalizeSegs (acc.drop 1) rest
    else normalizeSegs (s :: acc) rest

/-- Split a path string into its `/`-separated segments. -/
def pathSegs (p : String) : List String :=
  (splitOnChar '/' [] p.data).map String.mk

/-- Canonical absolute form of `p` resolved against working directory
`cwd` (given as normalized segments), as produced by `Path(p).resolve()`. -/
def resolvePath (cwd : List String) (p : String) : String :=
  let segs := if strStartsWith p "/" then pathSegs p else cwd ++ pathSegs p
  "/" ++ String.intercalate "/" (normalizeSegs [] segs)

/-- Final path component (`PurePath.name`): the last non-empty segment. -/
def fileName (p : String) : String :=
  (((pathSegs p).filter (fun s => !(s == ""))).getLast?).getD ""

/-- Index just after the last occurrence of `c` in `l`, or `0` if absent. -/
def lastIndexAfter (c : Char) (l : List Char) : Nat :=
  match l with
  | [] => 0
  | x :: rest =>
    let r := lastIndexAfter c rest
    if r ≠ 0 then r + 1 else if x = c then 1 else 0

/-- File extension of a path (`PurePath.suffix`): from the final dot of the
final component, empty when the name has no dot, starts with the dot, or
ends with the dot — pathlib accepts the dot only strictly inside the name. -/
def pathSuffix (p : String) : String :=
  let name := (fileName p).data
  let i := lastIndexAfter '.' name
  if 1 < i ∧ i < name.length then String.mk (name.drop (i - 1)) else ""

/-! ## Tool contract data model (`backend/tools/base_tool.py`) -/

/-- `ToolConfig` (base_tool.py).  Times are modelled in abstract duration
units. -/
structure ToolConfig where
  enabled : Bool := true
  max_execution_time : Nat := 30
  retry_attempts : Nat := 0
  safe_mode : Bool := true
  allowed_paths : Option (List String) := none
  blocked_patterns : List String := []
deriving DecidableEq, Repr

/-- Per-tool execution statistics owned by `BaseTool`. -/
structure ToolStats where
  execution_count : Nat := 0
  success_count : Nat := 0
  error_count : Nat := 0
  total_execution_time : Nat := 0
deriving DecidableEq, Repr

/-- `ToolResult` (base_tool.py): the uniform result every invocation
produces. -/
structure ToolResult (ρ : Type) where
  success : Bool
  result : Option ρ := none
  error : Option String := none
  execution_time : Nat
deriving DecidableEq, Repr

/-- `Except.ok`-ness of a policy or execution outcome. -/
def exceptOk {ε α : Type} : Except ε α → Bool
  | Except.ok _ => true
  | Except.error _ => false

/-- `BaseTool._validate_parameters`: the source body is a TODO `pass`, so
validation never rejects. -/
def validateParameters {π : Type} (_params : π) : Except String Unit :=
  Except.ok ()

/-- `BaseTool._security_check`: returns immediately when `safe_mode` is
off, and otherwise has an empty body (subclasses override it); either
branch allows. -/
def baseSecurityCheck {ε : Type} (cfg : ToolConfig) : Except ε Unit :=
  if !cfg.safe_mode then Except.ok () else Except.ok ()

/-- `BaseTool.execute`: the generic engine around a tool's security check
and `_execute` body.  State type `σ` is the tool's resource (filesystem,
network); `run` returns either a `ToolError` message or a payload plus the
updated resource.  `duration` is the measured wall-clock duration of the
body (the embedding of `time.time()` differences); the source adds it to
`total_execution_time` only on the success path, and a disabled tool
returns before any counter is touched. -/
def BaseToolExecute {π σ ρ : Type}
    (cfg : ToolConfig) (toolName : String)
    (securityCheck : π → Except String Unit)
    (run : π → σ → Except String (ρ × σ))
    (stats : ToolStats) (st : σ) (params : π) (duration : Nat) :
    ToolResult ρ × σ × ToolStats :=
  if !cfg.enabled then
    ({ success := false, error := some ("Tool " ++ (toolName ++ " is disabled")),
       execution_time := 0 }, st, stats)
  else
    let stats1 := { stats with execution_count := stats.execution_count + 1 }
    match validateParameters params with
    | Except.error msg =>
        ({ success := false, error := some msg, execution_time := duration }, st,
         { stats1 with error_count := stats1.error_count + 1 })
    | Except.ok _ =>
      match securityCheck params with
      | Except.error msg =>
          ({ success := false, error := some msg, execution_time := duration }, st,
           { stats1 with error_count := stats1.error_count + 1 })
      | Except.ok _ =>
        match run params st with
        | Except.error msg =>
            ({ success := false, error := some msg, execution_time := duration }, st,
             { stats1 with error_count := stats1.error_count + 1 })
        | Except.ok (payload, st2) =>
            ({ success := true, result := some payload, execution_time := duration }, st2,
             { stats1 with success_count := stats1.success_count + 1,
                           total_execution_time := stats1.total_execution_time + duration })

/-! ## FileSystemTool (`backend/tools/file_system_tool.py`) -/

/-- `FileSystemConfig` with the source defaults. -/
structure FileSystemConfig extends ToolConfig where
  allowed_extensions : List String :=
    [".txt", ".md", ".json", ".csv", ".xml", ".yml", ".yaml",
     ".py", ".js", ".html", ".css", ".sql", ".log"]
  blocked_extensions : List String :=
    [".exe", ".bat", ".cmd", ".com", ".scr", ".vbs", ".dll"]
  max_file_size : Nat := 50 * 1024 * 1024
  max_directory_depth : Nat := 10
  enable_backup : Bool := true
  backup_directory : String := "data/backups"
deriving DecidableEq, Repr

/-- The filesystem operations the embedding covers (the dispatch table in
`FileSystemTool._execute`, restricted to the file-content operations the
verified properties concern). -/
inductive FsOp where
  | read | write | copy | move | delete
deriving DecidableEq, Repr

/-- Parameters of a filesystem tool invocation (`kwargs`). -/
structure FsParams where
  operation : FsOp
  path : Option String := none
  content : Option String := none
  destination : Option String := none
deriving DecidableEq, Repr

/-- The distinct denial classes raised by
`FileSystemTool._security_check`, one constructor per `raise ToolError`
site. -/
inductive FsSecurityError where
  | pathRequired
  | notAllowed (path : String) (allowed : List String)
  | extensionNotAllowed (suffix : String)
  | blockedPattern (pattern : String)
  | traversalDetected
deriving DecidableEq, Repr

/-- Render a denial to its source error message (the `ToolError` text). -/
def FsSecurityError.message : FsSecurityError → String
  | FsSecurityError.pathRequired => "Path is required"
  | FsSecurityError.notAllowed p allowed =>
      "Path not in allowed directories: " ++
        (p ++ ("\nAllowed directories: " ++
          (String.intercalate ", " (allowed.take 3) ++
            (if 3 < allowed.length then "..." else ""))))
  | FsSecurityError.extensionNotAllowed sfx => "File extension not allowed: " ++ sfx
  | FsSecurityError.blockedPattern pat => "Path contains blocked pattern: " ++ pat
  | FsSecurityError.traversalDetected => "Directory traversal detected"

/-- Allowed-directory membership test used in the allowlist loop of
`_security_check`: the resolved path equals a resolved allowlist entry or
extends it at a path boundary.  (The source tests `startswith` against
both `os.sep` and `"/"`; on POSIX these coincide.) -/
def pathUnder (root q : String) : Bool :=
  q == root || strStartsWith q (root ++ "/")

/-- `operation in ["read", "write"]`. -/
def isReadWrite : FsOp → Bool
  | FsOp.read => true
  | FsOp.write => true
  | _ => false

/-- The extension clause of `_security_check`: for read/write operations
with a non-empty suffix, deny when the lowered suffix is blocked, or an
extension allowlist is configured and the suffix is absent from it. -/
def extensionBlocked (cfg : FileSystemConfig) (op : FsOp) (rp : String) : Bool :=
  let sfx := lowerStr (pathSuffix rp)
  isReadWrite op && !(pathSuffix rp == "") &&
    (memStr sfx cfg.blocked_extensions ||
     (!cfg.allowed_extensions.isEmpty && !(memStr sfx cfg.allowed_extensions)))

/-- The path policy applied to the raw requested path `p` (Python
falsiness makes an absent and an empty `path` equivalent, hence the
`getD ""`): presence, allowlist against resolved entries
(boundary-aware), extension filter, blocked patterns, then the traversal
clause — which re-tests the resolved path with a plain `startswith`
against the raw allowlist entries. -/
def fsPathPolicy (cfg : FileSystemConfig) (cwd : List String)
    (op : FsOp) (p : String) : Except FsSecurityError Unit :=
  if p == "" then Except.error FsSecurityError.pathRequired
  else
    if !(cfg.allowed_paths.getD []).isEmpty &&
       !((cfg.allowed_paths.getD []).any
         (fun a => pathUnder (resolvePath cwd a) (resolvePath cwd p))) then
      Except.error (FsSecurityError.notAllowed p (cfg.allowed_paths.getD []))
    else if extensionBlocked cfg op (resolvePath cwd p) then
      Except.error (FsSecurityError.extensionNotAllowed (pathSuffix (resolvePath cwd p)))
    else
      match cfg.blocked_patterns.find?
          (fun pat => strContains (resolvePath cwd p) pat) with
      | some pat => Except.error (FsSecurityError.blockedPattern pat)
      | none =>
        if (strContains (resolvePath cwd p) ".." ||
            strStartsWith (resolvePath cwd p) "/") &&
           !((cfg.allowed_paths.getD []).any
             (fun a => strStartsWith (resolvePath cwd p) a)) then
          Except.error FsSecurityError.traversalDetected
        else Except.ok ()

/-- `FileSystemTool._security_check`: base check, path presence, allowlist
(against resolved entries, boundary-aware), extension filter, blocked
patterns, then the traversal clause — which re-tests the resolved path
with a plain `startswith` against the raw allowlist entries.  Python
truthiness makes `None` and `[]` allowlists equivalent, so the allowlist
stage is modelled on `allowed_paths.getD []`. -/
def fsSecurityCheck (cfg : FileSystemConfig) (cwd : List String)
    (params : FsParams) : Except FsSecurityError Unit :=
  match baseSecurityCheck (ε := FsSecurityError) cfg.toToolConfig with
  | Except.error e => Except.error e
  | Except.ok _ =>
    fsPathPolicy cfg cwd params.operation (params.path.getD "")

/-! ### Filesystem state and the operation bodies

The filesystem is a finite map from canonical absolute paths to text file
contents (the OS resolves the raw argument paths the operation bodies
receive, so file identity is by resolved path).  File sizes are content
lengths. -/

/-- Filesystem state: association list from canonical path to content. -/
abbrev Fs := List (String × String)

/-- Look up a file by canonical path. -/
def Fs.find : Fs → String → Option String
  | [], _ => none
  | (k, v) :: rest, q => if k == q then some v else Fs.find rest q

/-- Remove a file. -/
def Fs.erase (fs : Fs) (k : String) : Fs :=
  fs.filter (fun kv => !(kv.1 == k))

/-- Create or overwrite a file. -/
def Fs.insert (fs : Fs) (k v : String) : Fs :=
  (k, v) :: fs.erase k

/-- Operation payloads (the result dictionaries, restricted to the fields
the verified properties mention). -/
inductive FsPayload where
  | readResult (content : String) (size : Nat)
  | writeResult (path : String) (size : Nat)
  | copyResult (source destination : String)
  | moveResult (source destination : String)
  | deleteResult (path : String)
deriving DecidableEq, Repr

/-- Destination of the automatic timestamped backup
(`FileSystemTool._backup_file`): `backup_directory / name_timestamp`,
with the timestamp rendered from the abstract clock `now`. -/
def backupDestination (cfg : FileSystemConfig) (cwd : List String)
    (now : Nat) (p : String) : String :=
  resolvePath cwd (cfg.backup_directory ++ "/" ++ fileName p ++ "_" ++ Nat.repr now)

/-- The operation bodies, over the raw path `p` and its resolved form `rp`. -/
def fsRunOp (cfg : FileSystemConfig) (cwd : List String) (now : Nat)
    (op : FsOp) (p : String) (rp : String) (content? : Option String)
    (destination? : Option String) (fs : Fs) : Except String (FsPayload × Fs) :=
  match op with
  | FsOp.read =>
    match fs.find rp with
    | none => Except.error ("File not found: " ++ p)
    | some content =>
      if cfg.max_file_size < content.length then
        Except.error ("File too large: " ++ (Nat.repr content.length ++
          (" bytes > " ++ Nat.repr cfg.max_file_size)))
      else Except.ok (FsPayload.readResult content content.length, fs)
  | FsOp.write =>
    match content? with
    | none => Except.error "Unexpected error: write requires content"
    | some content =>
      let fs1 :=
        match fs.find rp with
        | some old =>
          if cfg.enable_backup then fs.insert (backupDestination cfg cwd now p) old
          else fs
        | none => fs
      Except.ok (FsPayload.writeResult rp content.length, fs1.insert rp content)
  | FsOp.copy =>
    match destination? with
    | none => Except.error "Unexpected error: copy requires destination"
    | some d =>
      match fs.find rp with
      | none => Except.error ("Source not found: " ++ p)
      | some content =>
        let rd := resolvePath cwd d
        Except.ok (FsPayload.copyResult rp rd, fs.insert rd content)
  | FsOp.move =>
    match destination? with
    | none => Except.error "Unexpected error: move requires destination"
    | some d =>
      match fs.find rp with
      | none => Except.error ("Source not found: " ++ p)
      | some content =>
        let rd := resolvePath cwd d
        Except.ok (FsPayload.moveResult rp rd, (fs.erase rp).insert rd content)
  | FsOp.delete =>
    match fs.find rp with
    | none => Except.error ("Item not found: " ++ p)
    | some content =>
      let fs1 :=
        if cfg.enable_backup then fs.insert (backupDestination cfg cwd now p) content
        else fs
      Except.ok (FsPayload.deleteResult rp, fs1.erase rp)

/-- `FileSystemTool._execute`: dispatch to the operation bodies.  `write`
and `delete` first copy the pre-existing file into the backup directory
when `enable_backup` is set; `write` then creates/overwrites the file;
`read` enforces `max_file_size`.  Missing required arguments surface as
error results (in the source, a `TypeError` caught by the engine's
catch-all). -/
def fsRun (cfg : FileSystemConfig) (cwd : List String) (now : Nat)
    (params : FsParams) (fs : Fs) : Except String (FsPayload × Fs) :=
  fsRunOp cfg cwd now params.operation (params.path.getD "")
    (resolvePath cwd (params.path.getD "")) params.content params.destination fs

/-- The full `FileSystemTool` invocation path: `BaseTool.execute`
instantiated with the filesystem security check and operation bodies. -/
def fsToolExecute (cfg : FileSystemConfig) (cwd : List String) (now : Nat)
    (stats : ToolStats) (fs : Fs) (params : FsParams) (duration : Nat) :
    ToolResult FsPayload × Fs × ToolStats :=
  BaseToolExecute cfg.toToolConfig "file_system"
    (fun q => (fsSecurityCheck cfg cwd q).mapError FsSecurityError.message)
    (fsRun cfg cwd now) stats fs params duration

/-! ## WebSearchTool security checks (`backend/tools/web_search_tool.py`) -/

/-- `WebSearchConfig` with the source defaults (the fields the security
checks consult). -/
structure WebSearchConfig extends ToolConfig where
  allowed_domains : Option (List String) := none
  blocked_domains : List String := ["malware.com", "phishing.com", "spam.com"]
deriving DecidableEq, Repr

/-- Web operations named by the verified properties. -/
inductive WebOp where
  | search | extract_content | validate_url | parse_rss | get_page_info | bulk_search
deriving DecidableEq, Repr

/-- Parameters of a web tool invocation (`kwargs.get` defaults as in
`_security_check`). -/
structure WebParams where
  operation : WebOp
  query : String := ""
  urls : List String := []
deriving DecidableEq, Repr

/-- Denial classes of the web security checks, one per `raise ToolError`
site. -/
inductive WebSecurityError where
  | suspiciousQuery (pattern : String)
  | blockedDomain (domain : String)
  | domainNotAllowed (domain : String)
  | suspiciousUrl (url : String)
deriving DecidableEq, Repr

/-- The eight literal patterns scanned over the query string (the source
compiles them as regexes with `re.IGNORECASE`; none contains a
metacharacter, so they act as case-insensitive substring tests). -/
def querySuspiciousPatterns : List String :=
  ["javascript:", "data:", "vbscript:", "file://",
   "<script", "</script>", "onclick=", "onerror="]

/-- The substrings the URL-level "suspicious pattern" clause looks for in
the lowercased URL. -/
def suspiciousUrlSubstrings : List String :=
  ["localhost", "127.0.0.1", "0.0.0.0", "192.168.", "10.0.0.",
   "file://", "javascript:", "data:"]

/-- Character list left after the first `://`, if any (the authority part
of the URL as `urlparse` sees it for scheme-qualified URLs). -/
def afterScheme : List Char → Option (List Char)
  | ':' :: '/' :: '/' :: rest => some rest
  | _ :: rest => afterScheme rest
  | [] => none

/-- `urlparse(url).netloc`: the authority component, ending at the first
`/`, `?` or `#`. -/
def urlNetloc (url : String) : String :=
  match afterScheme url.data with
  | none => ""
  | some rest =>
    String.mk (rest.takeWhile (fun c => !(c == '/' || c == '?' || c == '#')))

/-- `url.startswith(("http://", "https://"))`. -/
def isHttpUrl (s : String) : Bool :=
  strStartsWith s "http://" || strStartsWith s "https://"

/-- `parsed.netloc.lower()`: the lowercased host component. -/
def urlDomain (url : String) : String := lowerStr (urlNetloc url)

/-- `WebSearchTool._validate_url_security`: blocked-domain substring test,
then the allowed-domain substring allowlist (skipped when unset/empty,
matching Python truthiness), then the suspicious-substring scan over the
lowercased URL. -/
def validateUrlSecurity (cfg : WebSearchConfig) (url : String) :
    Except WebSecurityError Unit :=
  match cfg.blocked_domains.find? (fun b => strContains (urlDomain url) b) with
  | some _ => Except.error (WebSecurityError.blockedDomain (urlDomain url))
  | none =>
    if !(cfg.allowed_domains.getD []).isEmpty &&
       !((cfg.allowed_domains.getD []).any (fun a => strContains (urlDomain url) a)) then
      Except.error (WebSecurityError.domainNotAllowed (urlDomain url))
    else if suspiciousUrlSubstrings.any (fun s => strContains (lowerStr url) s) then
      Except.error (WebSecurityError.suspiciousUrl url)
    else Except.ok ()

/-- Run `_validate_url_security` over each scheme-qualified URL in order,
stopping at the first denial. -/
def checkUrls (cfg : WebSearchConfig) : List String → Except WebSecurityError Unit
  | [] => Except.ok ()
  | u :: rest =>
    if isHttpUrl u then
      match validateUrlSecurity cfg u with
      | Except.error e => Except.error e
      | Except.ok _ => checkUrls cfg rest
    else checkUrls cfg rest

/-- `WebSearchTool._security_check`: base check, the query-injection
pattern scan, then URL validation of the query (when it is itself a URL)
and of every entry of `urls`. -/
def webSecurityCheck (cfg : WebSearchConfig) (params : WebParams) :
    Except WebSecurityError Unit :=
  match baseSecurityCheck (ε := WebSecurityError) cfg.toToolConfig with
  | Except.error e => Except.error e
  | Except.ok _ =>
    match querySuspiciousPatterns.find?
        (fun pat => strContains (lowerStr params.query) pat) with
    | some pat => Except.error (WebSecurityError.suspiciousQuery pat)
    | none =>
      checkUrls cfg
        ((if isHttpUrl params.query then [params.query] else []) ++ params.urls)

/-! ### The spec-side notion of loopback/private hosts

Formalizes the spec phrase "host is a loopback or private-network
address": `localhost`, the IPv4 loopback block 127/8, RFC1918 private
blocks 10/8, 172.16/12, 192.168/16, link-local 169.254/16, and the
unspecified address.  This is the property the claim quantifies over, not
part of the program embedding. -/

/-- Parse a decimal numeral. -/
def decNat? (l : List Char) : Option Nat :=
  if l.isEmpty then none
  else l.foldlM (fun acc c => if c.isDigit then some (acc * 10 + (c.toNat - 48)) else none) 0

/-- Parse a dotted-quad IPv4 literal. -/
def parseIPv4 (host : String) : Option (Nat × Nat × Nat × Nat) :=
  match (splitOnChar '.' [] host.data).map decNat? with
  | [some a, some b, some c, some d] =>
    if a ≤ 255 ∧ b ≤ 255 ∧ c ≤ 255 ∧ d ≤ 255 then some (a, b, c, d) else none
  | _ => none

/-- Loopback or private-network host, per the spec's SSRF wording. -/
def isLoopbackOrPrivateHost (host : String) : Bool :=
  host == "localhost" ||
  (match parseIPv4 host with
   | some (a, b, _, _) =>
     a == 127 || a == 10 || (a == 172 && Nat.ble 16 b && Nat.ble b 31) ||
     (a == 192 && b == 168) || (a == 169 && b == 254) || a == 0
   | none => false)

/-! ## Orchestration loop
(`ImprovedAgentService.agent_chat_with_tools`, agent_service.py)

The completion client is an oracle mapping the round-trip number to a
reply: either a terminal text or a list of requested tool calls.  Tool
execution is abstracted to a success flag per call (`execute_tool` never
raises; it always returns a `ToolResult`).  The Python `while` loop need
not terminate (a reply whose first tool call has malformed arguments makes
no progress), so the model carries explicit round-trip fuel and returns
`none` when the source loop would still be running. -/

/-- One tool call requested by the completion client; `argsValid` is
whether `json.loads` accepts its argument text. -/
structure ToolCallReq where
  name : String
  argsValid : Bool
  args : String
deriving DecidableEq, Repr

/-- A completion reply. -/
inductive CompletionReply where
  | text (content : String)
  | toolCalls (calls : List ToolCallReq)

/-- Record of one executed tool call (`tool_calls_made` entries). -/
structure AgentToolCall where
  tool : String
  args : String
  success : Bool
deriving DecidableEq, Repr

/-- Result of `agent_chat_with_tools`: `iteration_limited` marks the
fallthrough dictionary carrying the "Max iterations reached" error
field. -/
structure AgentChatResult where
  response : String
  tool_calls : List AgentToolCall
  iterations : Nat
  iteration_limited : Bool
deriving DecidableEq, Repr

/-- Number of tool calls a reply requests. -/
def replyCalls : CompletionReply → Nat
  | CompletionReply.text _ => 0
  | CompletionReply.toolCalls l => l.length

/-- The canned fallthrough response text. -/
def iterationLimitedMessage : String :=
  "I've completed the available tool interactions. Some operations may have reached the iteration limit."

/-- The `for tool_call in message["tool_calls"]` body: execute each call
in order; a call with malformed argument JSON breaks out of the loop,
dropping the remaining calls of the reply. -/
def processToolCalls (exec : String → String → Bool) :
    List ToolCallReq → List AgentToolCall
  | [] => []
  | c :: rest =>
    if c.argsValid then
      { tool := c.name, args := c.args, success := exec c.name c.args } ::
        processToolCalls exec rest
    else []

/-- The `while iteration < max_iterations` loop.  Each executed tool call
increments `iteration`; a reply with no tool calls (Python falsiness makes
an empty list take the same branch as a text reply) terminates with the
text; exhausting the bound falls through to the iteration-limited result
carrying every call made. -/
def agentChatLoop (client : Nat → CompletionReply) (exec : String → String → Bool)
    (maxIterations : Nat) :
    Nat → Nat → Nat → List AgentToolCall → Option AgentChatResult
  | 0, _, _, _ => none
  | fuel + 1, t, iteration, made =>
    if iteration < maxIterations then
      match client t with
      | CompletionReply.text content => some ⟨content, made, iteration, false⟩
      | CompletionReply.toolCalls calls =>
        if calls.isEmpty then some ⟨"", made, iteration, false⟩
        else
          let recs := processToolCalls exec calls
          agentChatLoop client exec maxIterations fuel (t + 1)
            (iteration + recs.length) (made ++ recs)
    else some ⟨iterationLimitedMessage, made, iteration, true⟩

/-- `agent_chat_with_tools` from a fresh conversation. -/
def agentChatWithTools (client : Nat → CompletionReply)
    (exec : String → String → Bool) (maxIterations fuel : Nat) :
    Option AgentChatResult :=
  agentChatLoop client exec maxIterations fuel 0 0 []

/-! ## Helper lemmas -/

/-- A string with a non-empty left part is non-empty. -/
theorem append_ne_empty_left (s t : String) (h : s.data ≠ []) : s ++ t ≠ "" := by
  obtain ⟨l⟩ := s
  obtain ⟨m⟩ := t
  intro he
  have hd : l ++ m = [] := congrArg String.data he
  exact h (List.append_eq_nil.mp hd).1

/-- `mapError` preserves allow/deny. -/
theorem exceptOk_mapError {ε ε' α : Type} (f : ε → ε') (e : Except ε α) :
    exceptOk (e.mapError f) = exceptOk e := by
  cases e <;> rfl

/-- An error produced through `mapError` comes from an error of the
underlying computation. -/
theorem mapError_eq_error {ε ε' α : Type} (f : ε → ε') (e : Except ε α) (m : ε')
    (h : e.mapError f = Except.error m) : ∃ e0, e = Except.error e0 ∧ m = f e0 := by
  cases e with
  | ok v => simp [Except.mapError] at h
  | error e0 => exact ⟨e0, rfl, by simpa [Except.mapError] using h.symm⟩

/-- Pointwise-false predicates have a false `any`. -/
theorem any_eq_false_of_all_not {α : Type} (l : List α) (f : α → Bool)
    (h : l.all (fun a => !(f a)) = true) : l.any f = false := by
  have hall : ∀ a ∈ l, f a = false := by
    intro a ha
    have := List.all_eq_true.mp h a ha
    simpa using this
  cases hany : l.any f with
  | false => rfl
  | true =>
    obtain ⟨a, ha, hfa⟩ := List.any_eq_true.mp hany
    rw [hall a ha] at hfa
    cases hfa

/-- Every string is a Boolean prefix of itself. -/
theorem strStartsWith_refl (s : String) : strStartsWith s s = true := by
  unfold strStartsWith
  exact List.isPrefixOf_iff_prefix.mpr (List.prefix_refl s.data)

/-- Prefixing the root separator yields a string starting with it. -/
theorem root_append_startsWith (s : String) : strStartsWith ("/" ++ s) "/" = true := by
  obtain ⟨l⟩ := s
  show List.isPrefixOf ['/'] ('/' :: l) = true
  simp [List.isPrefixOf]

/-- A resolved path always starts with the root separator. -/
theorem resolvePath_startsWith_root (cwd : List String) (p : String) :
    strStartsWith (resolvePath cwd p) "/" = true := by
  unfold resolvePath
  exact root_append_startsWith _

/-- Allowed-directory membership implies the raw `startswith` test of the
traversal clause. -/
theorem strStartsWith_of_pathUnder (root q : String) (h : pathUnder root q = true) :
    strStartsWith q root = true := by
  unfold pathUnder at h
  rcases Bool.or_eq_true_iff.mp h with heq | hpre
  · rw [show q = root from beq_iff_eq.mp heq]
    exact strStartsWith_refl root
  · unfold strStartsWith at hpre ⊢
    have h1 : root.data <+: (root ++ "/").data := by
      obtain ⟨l⟩ := root
      exact List.prefix_append l _
    exact List.isPrefixOf_iff_prefix.mpr
      (List.IsPrefix.trans h1 (List.isPrefixOf_iff_prefix.mp hpre))

/-- Looking up the path just written returns what was written. -/
theorem Fs.find_insert (fs : Fs) (k v : String) :
    Fs.find (fs.insert k v) k = some v := by
  simp [Fs.insert, Fs.find]

/-- The base security check never denies (its body is empty in both
branches). -/
theorem baseSecurityCheck_ok {ε : Type} (cfg : ToolConfig) :
    baseSecurityCheck (ε := ε) cfg = Except.ok () := by
  unfold baseSecurityCheck
  exact ite_self _

/-- A denied security check makes the engine return a failed result and
leave the tool's resource untouched. -/
theorem BaseToolExecute_security_denied {π σ ρ : Type}
    (cfg : ToolConfig) (toolName : String)
    (securityCheck : π → Except String Unit) (run : π → σ → Except String (ρ × σ))
    (stats : ToolStats) (st : σ) (params : π) (duration : Nat)
    (h : exceptOk (securityCheck params) = false) :
    (BaseToolExecute cfg toolName securityCheck run stats st params duration).1.success = false ∧
    (BaseToolExecute cfg toolName securityCheck run stats st params duration).2.1 = st := by
  unfold BaseToolExecute
  split
  · exact ⟨rfl, rfl⟩
  · cases hsc : securityCheck params with
    | error msg => simp [validateParameters, hsc]
    | ok v => rw [hsc] at h; simp [exceptOk] at h

/-! ## Concrete fixtures used by closed theorems -/

/-- Filesystem tool configured with the allowlist of the spec scenarios. -/
def workConfig : FileSystemConfig := { allowed_paths := some ["/work"] }

/-- Same configuration with the tool disabled. -/
def workConfigDisabled : FileSystemConfig :=
  { allowed_paths := some ["/work"], enabled := false }

/-- Web tool with the source's default configuration. -/
def defaultWebConfig : WebSearchConfig := {}

/-- A completion client that always requests two well-formed tool calls in
a single reply. -/
def twoCallClient : Nat → CompletionReply :=
  fun _ => CompletionReply.toolCalls
    [⟨"file_system", true, "a"⟩, ⟨"file_system", true, "b"⟩]

/-- A completion client that always requests exactly one well-formed tool
call per reply. -/
def oneCallClient : Nat → CompletionReply :=
  fun _ => CompletionReply.toolCalls [⟨"t", true, "x"⟩]

/-- A tool executor that reports success for every call. -/
def alwaysOkExec : String → String → Bool := fun _ _ => true

/-! ## C4 — the security check reads only `path`; `destination` escapes -/

/-- C4: `FileSystemTool._security_check` evaluates only the `path`
parameter.  A `copy` request whose source lies under the allowed root
`/work` but whose destination `/outside/b.txt` is outside every allowed
root (and matches no blocked pattern) passes the security check, the full
invocation succeeds, and the engine writes the file outside the
allowlisted sandbox. -/
theorem fs_copy_destination_unchecked :
    exceptOk (fsSecurityCheck workConfig []
      { operation := FsOp.copy, path := some "/work/a.txt",
        destination := some "/outside/b.txt" }) = true ∧
    (workConfig.allowed_paths.getD []).all
      (fun a => !(pathUnder (resolvePath [] a) (resolvePath [] "/outside/b.txt"))) = true ∧
    (fsToolExecute workConfig [] 0 {} [("/work/a.txt", "hello")]
      { operation := FsOp.copy, path := some "/work/a.txt",
        destination := some "/outside/b.txt" } 3).1.success = true ∧
    Fs.find (fsToolExecute workConfig [] 0 {} [("/work/a.txt", "hello")]
      { operation := FsOp.copy, path := some "/work/a.txt",
        destination := some "/outside/b.txt" } 3).2.1 "/outside/b.txt" = some "hello" := by
  refine ⟨rfl, rfl, rfl, rfl⟩

/-! ## C6 — the `/work/../etc/passwd` scenario is denied, but not with a
traversal reason -/

/-- C6 counterexample: with allowlist `["/work"]`, the request
`read("/work/../etc/passwd")` is denied with the outside-allowlist
reason, not a traversal reason, contrary to the claim. -/
theorem fs_dotdot_scenario_not_traversal_cex :
    fsSecurityCheck workConfig []
      { operation := FsOp.read, path := some "/work/../etc/passwd" } =
      Except.error (FsSecurityError.notAllowed "/work/../etc/passwd" ["/work"]) ∧
    FsSecurityError.notAllowed "/work/../etc/passwd" ["/work"] ≠
      FsSecurityError.traversalDetected := by
  refine ⟨rfl, by decide⟩

/-! ## C8 — disabled tools short-circuit with a fixed failed result -/

/-- C8: with `enabled = false`, `BaseTool.execute` returns, for every
parameter set, the fixed failed result with zero execution time, leaving
the tool's resource and statistics untouched — independent of the
security check and the operation bodies, which are therefore never
consulted. -/
theorem execute_disabled_short_circuit {π σ ρ : Type}
    (cfg : ToolConfig) (toolName : String)
    (securityCheck : π → Except String Unit) (run : π → σ → Except String (ρ × σ))
    (stats : ToolStats) (st : σ) (params : π) (duration : Nat)
    (h : cfg.enabled = false) :
    BaseToolExecute cfg toolName securityCheck run stats st params duration =
      ({ success := false, error := some ("Tool " ++ (toolName ++ " is disabled")),
         execution_time := 0 }, st, stats) := by
  unfold BaseToolExecute
  rw [h]
  rfl

/-- C8 witness: a disabled filesystem tool invocation with a read request
returns the fixed failed result, changing neither the filesystem nor the
statistics. -/
theorem execute_disabled_short_circuit_witness :
    fsToolExecute workConfigDisabled [] 0 {} [("/work/a.txt", "hi")]
      { operation := FsOp.read, path := some "/work/a.txt" } 5 =
      ({ success := false, error := some "Tool file_system is disabled",
         execution_time := 0 }, [("/work/a.txt", "hi")], {}) :=
  execute_disabled_short_circuit workConfigDisabled.toToolConfig "file_system"
    (fun q => (fsSecurityCheck workConfigDisabled [] q).mapError FsSecurityError.message)
    (fsRun workConfigDisabled [] 0) {} [("/work/a.txt", "hi")]
    { operation := FsOp.read, path := some "/work/a.txt" } 5 rfl

/-! ## C9 — statistics bookkeeping is not outcome-independent -/

/-- C9 counterexample: a disabled invocation leaves the execution counter
at zero (nothing is incremented), and a security-denied invocation whose
measured duration is 5 leaves the accumulated total execution time at
zero even though the result reports the 5-unit duration — both
contradicting the claim that every invocation increments the execution
counter and accumulates the duration independent of outcome. -/
theorem execute_statistics_claim_cex :
    (fsToolExecute workConfigDisabled [] 0 {} []
      { operation := FsOp.read, path := some "/work/a.txt" } 5).2.2.execution_count = 0 ∧
    (fsToolExecute workConfig [] 0 {} []
      { operation := FsOp.read, path := some "/etc/passwd" } 5).2.2.error_count = 1 ∧
    (fsToolExecute workConfig [] 0 {} []
      { operation := FsOp.read, path := some "/etc/passwd" } 5).1.execution_time = 5 ∧
    (fsToolExecute workConfig [] 0 {} []
      { operation := FsOp.read, path := some "/etc/passwd" } 5).2.2.total_execution_time = 0 := by
  refine ⟨rfl, rfl, rfl, rfl⟩

/-- C9 as amended: an enabled invocation increments the execution counter
and exactly one of the success/error counters, but the measured duration
is added to the accumulated total only on the success path; a disabled
invocation modifies no counter at all. -/
theorem execute_statistics_update {π σ ρ : Type}
    (cfg : ToolConfig) (toolName : String)
    (securityCheck : π → Except String Unit) (run : π → σ → Except String (ρ × σ))
    (stats : ToolStats) (st : σ) (params : π) (duration : Nat)
    (out : ToolResult ρ × σ × ToolStats)
    (hout : out = BaseToolExecute cfg toolName securityCheck run stats st params duration) :
    (cfg.enabled = false → out.2.2 = stats) ∧
    (cfg.enabled = true →
      out.2.2.execution_count = stats.execution_count + 1 ∧
      (out.1.success = true →
        out.2.2.success_count = stats.success_count + 1 ∧
        out.2.2.error_count = stats.error_count ∧
        out.2.2.total_execution_time = stats.total_execution_time + duration) ∧
      (out.1.success = false →
        out.2.2.error_count = stats.error_count + 1 ∧
        out.2.2.success_count = stats.success_count ∧
        out.2.2.total_execution_time = stats.total_execution_time)) := by
  subst hout
  unfold BaseToolExecute
  cases he : cfg.enabled with
  | false =>
    refine ⟨fun _ => rfl, fun hc => ?_⟩
    cases hc
  | true =>
    refine ⟨fun hc => ?_, fun _ => ?_⟩
    · cases hc
    · cases hsc : securityCheck params with
      | error msg =>
        refine ⟨rfl, fun hs => ?_, fun _ => ⟨rfl, rfl, rfl⟩⟩
        cases hs
      | ok v =>
        cases hr : run params st with
        | error msg =>
          refine ⟨rfl, fun hs => ?_, fun _ => ⟨rfl, rfl, rfl⟩⟩
          cases hs
        | ok pr =>
          refine ⟨rfl, fun _ => ⟨rfl, rfl, rfl⟩, fun hs => ?_⟩
          cases hs

/-- C9 witness: the amended statistics law evaluated on a concrete enabled
successful write — counter goes to 1 and the duration is accumulated. -/
theorem execute_statistics_update_witness :
    (fsToolExecute workConfig [] 0 {} []
      { operation := FsOp.write, path := some "/work/notes.txt",
        content := some "hello" } 3).2.2.execution_count = 0 + 1 ∧
    (fsToolExecute workConfig [] 0 {} []
      { operation := FsOp.write, path := some "/work/notes.txt",
        content := some "hello" } 3).2.2.success_count = 0 + 1 := by
  have h := execute_statistics_update workConfig.toToolConfig "file_system"
    (fun q => (fsSecurityCheck workConfig [] q).mapError FsSecurityError.message)
    (fsRun workConfig [] 0) {} []
    { operation := FsOp.write, path := some "/work/notes.txt", content := some "hello" } 3
    (fsToolExecute workConfig [] 0 {} []
      { operation := FsOp.write, path := some "/work/notes.txt",
        content := some "hello" } 3) rfl
  exact ⟨(h.2 rfl).1, ((h.2 rfl).2.1 rfl).1⟩

/-! ## C10 — the filesystem path policy does not depend on `safe_mode` -/

/-- C10: `FileSystemTool._security_check` evaluates identically whatever
the `safe_mode` flag is: disabling safe mode only short-circuits the empty
base-class check and bypasses no part of the allowlist, extension,
blocked-pattern or traversal policy. -/
theorem fs_security_check_ignores_safe_mode (cfg : FileSystemConfig)
    (cwd : List String) (params : FsParams) (b : Bool) :
    fsSecurityCheck { cfg with safe_mode := b } cwd params =
      fsSecurityCheck cfg cwd params := by
  unfold fsSecurityCheck
  rw [baseSecurityCheck_ok, baseSecurityCheck_ok]
  rfl

/-! ## C2 — the SSRF defense is a fixed substring blacklist, not a
loopback/private-address check -/

/-- C2 counterexample: `10.1.2.3` (RFC1918 private) and `172.16.0.1`
(RFC1918 private) are loopback/private hosts, yet `validate_url` and
`extract_content` requests for them pass `WebSearchTool`'s security check
under the default configuration — a raw IP literal outside the hard-coded
substring list bypasses the SSRF defense. -/
theorem web_ssrf_private_ip_not_denied_cex :
    isLoopbackOrPrivateHost (urlNetloc "http://10.1.2.3/") = true ∧
    webSecurityCheck defaultWebConfig
      { operation := WebOp.validate_url, query := "http://10.1.2.3/" } = Except.ok () ∧
    isLoopbackOrPrivateHost (urlNetloc "http://172.16.0.1/") = true ∧
    webSecurityCheck defaultWebConfig
      { operation := WebOp.extract_content, query := "http://172.16.0.1/" } = Except.ok () := by
  refine ⟨rfl, rfl, rfl, rfl⟩

/-- A URL containing one of the hard-coded suspicious substrings never
passes `_validate_url_security`, whatever the domain lists say. -/
theorem validateUrlSecurity_suspicious (cfg : WebSearchConfig) (u : String)
    (hs : suspiciousUrlSubstrings.any (fun s => strContains (lowerStr u) s) = true) :
    exceptOk (validateUrlSecurity cfg u) = false := by
  unfold validateUrlSecurity
  rw [if_pos hs]
  cases hf : cfg.blocked_domains.find? (fun b => strContains (urlDomain u) b) with
  | some pat => rfl
  | none =>
    by_cases hc : (!(cfg.allowed_domains.getD []).isEmpty &&
        !((cfg.allowed_domains.getD []).any (fun a => strContains (urlDomain u) a))) = true
    · rw [if_pos hc]
      rfl
    · rw [if_neg hc]
      rfl

/-- C2 as amended: the URL-level security check denies every request
whose query is a scheme-qualified URL containing one of the hard-coded
suspicious substrings (`localhost`, `127.0.0.1`, `0.0.0.0`, `192.168.`,
`10.0.0.`, `file://`, `javascript:`, `data:`) — independently of the
domain allowlist — but this substring blacklist is the entire SSRF
defense, so loopback/private hosts outside it are not denied. -/
theorem web_suspicious_url_denied (cfg : WebSearchConfig) (params : WebParams)
    (hq : isHttpUrl params.query = true)
    (hs : suspiciousUrlSubstrings.any
      (fun s => strContains (lowerStr params.query) s) = true) :
    exceptOk (webSecurityCheck cfg params) = false := by
  unfold webSecurityCheck
  rw [baseSecurityCheck_ok]
  cases hfind : querySuspiciousPatterns.find?
      (fun pat => strContains (lowerStr params.query) pat) with
  | some pat => rfl
  | none =>
    show exceptOk (checkUrls cfg
      ((if isHttpUrl params.query then [params.query] else []) ++ params.urls)) = false
    rw [if_pos hq]
    show exceptOk (checkUrls cfg (params.query :: params.urls)) = false
    unfold checkUrls
    rw [if_pos hq]
    cases hv : validateUrlSecurity cfg params.query with
    | error e => rfl
    | ok v =>
      have := validateUrlSecurity_suspicious cfg params.query hs
      rw [hv] at this
      cases this

/-- C2 witness: with the default configuration, a private `192.168.`
address is denied by the amended rule. -/
theorem web_suspicious_url_denied_witness :
    exceptOk (webSecurityCheck defaultWebConfig
      { operation := WebOp.validate_url, query := "http://192.168.0.5/" }) = false :=
  web_suspicious_url_denied defaultWebConfig
    { operation := WebOp.validate_url, query := "http://192.168.0.5/" } rfl rfl

/-! ## C3 — the iteration bound is checked per round-trip, not per tool
call -/

/-- C3 counterexample: with `maxIterations = 1`, a single completion reply
carrying two well-formed tool calls makes the loop execute both of them —
2 tool calls in total, exceeding the bound — before returning the
iteration-limited result. -/
theorem agent_loop_exceeds_bound_cex :
    agentChatWithTools twoCallClient alwaysOkExec 1 3 =
      some ⟨iterationLimitedMessage,
        [⟨"file_system", "a", true⟩, ⟨"file_system", "b", true⟩], 2, true⟩ ∧
    ¬(([⟨"file_system", "a", true⟩, ⟨"file_system", "b", true⟩] :
        List AgentToolCall).length ≤ 1) := by
  refine ⟨rfl, by decide⟩

/-- Processing a reply's tool calls executes at most as many calls as the
reply requested. -/
theorem processToolCalls_length_le (exec : String → String → Bool)
    (l : List ToolCallReq) : (processToolCalls exec l).length ≤ l.length := by
  induction l with
  | nil => exact Nat.le_refl 0
  | cons c rest ih =>
    unfold processToolCalls
    split
    · exact Nat.succ_le_succ ih
    · exact Nat.zero_le _

/-- Loop invariant: provided every reply carries at most one tool call,
a run that returns keeps the iteration count within the bound, counts
exactly the calls recorded, and flags the iteration-limited exit. -/
theorem agentChatLoop_invariant (client : Nat → CompletionReply)
    (exec : String → String → Bool) (maxIterations : Nat)
    (hcl : ∀ t, replyCalls (client t) ≤ 1) :
    ∀ fuel t iteration made r,
      agentChatLoop client exec maxIterations fuel t iteration made = some r →
      iteration ≤ maxIterations →
      iteration + r.tool_calls.length ≤ maxIterations + made.length ∧
      r.iterations + made.length = iteration + r.tool_calls.length ∧
      (r.iteration_limited = true → maxIterations ≤ r.iterations) := by
  intro fuel
  induction fuel with
  | zero =>
    intro t iteration made r h _
    cases h
  | succ fuel ih =>
    intro t iteration made r h hle
    unfold agentChatLoop at h
    by_cases hit : iteration < maxIterations
    · rw [if_pos hit] at h
      cases hct : client t with
      | text content =>
        rw [hct] at h
        simp only [] at h
        cases h
        refine ⟨?_, ?_, ?_⟩
        · show iteration + made.length ≤ maxIterations + made.length
          omega
        · show iteration + made.length = iteration + made.length
          rfl
        · intro hl
          cases hl
      | toolCalls calls =>
        rw [hct] at h
        simp only [] at h
        by_cases hemp : calls.isEmpty = true
        · rw [if_pos hemp] at h
          cases h
          refine ⟨?_, ?_, ?_⟩
          · show iteration + made.length ≤ maxIterations + made.length
            omega
          · show iteration + made.length = iteration + made.length
            rfl
          · intro hl
            cases hl
        · rw [if_neg hemp] at h
          have hrec : (processToolCalls exec calls).length ≤ 1 := by
            have h1 := processToolCalls_length_le exec calls
            have h2 := hcl t
            rw [hct] at h2
            exact Nat.le_trans h1 h2
          have hstep : iteration + (processToolCalls exec calls).length ≤ maxIterations := by
            omega
          have hinv := ih (t + 1) (iteration + (processToolCalls exec calls).length)
            (made ++ processToolCalls exec calls) r h hstep
          rcases hinv with ⟨hb, heq, hfl⟩
          rw [List.length_append] at hb heq
          exact ⟨by omega, by omega, hfl⟩
    · rw [if_neg hit] at h
      cases h
      refine ⟨?_, ?_, ?_⟩
      · show iteration + made.length ≤ maxIterations + made.length
        omega
      · show iteration + made.length = iteration + made.length
        rfl
      · intro _
        show maxIterations ≤ iteration
        omega

/-- C3 as amended: when every completion reply requests at most one tool
call, the loop executes at most `maxIterations` tool calls; whenever the
loop returns, its result records an iteration count equal to the number
of tool calls it reports (every call made is included), and the
iteration-limited flag is raised only with the bound reached. -/
theorem agent_loop_bounded (client : Nat → CompletionReply)
    (exec : String → String → Bool) (maxIterations fuel : Nat)
    (r : AgentChatResult)
    (hcl : ∀ t, replyCalls (client t) ≤ 1)
    (h : agentChatWithTools client exec maxIterations fuel = some r) :
    r.tool_calls.length ≤ maxIterations ∧
    r.iterations = r.tool_calls.length ∧
    (r.iteration_limited = true → maxIterations ≤ r.iterations) := by
  have := agentChatLoop_invariant client exec maxIterations hcl fuel 0 0 [] r h
    (Nat.zero_le _)
  rcases this with ⟨hb, heq, hfl⟩
  simp only [List.length_nil] at hb heq
  exact ⟨by omega, by omega, hfl⟩

/-- C3 witness: a client that always requests exactly one call against
`maxIterations = 2` stops with 2 recorded calls, within the bound. -/
theorem agent_loop_bounded_witness :
    ((⟨iterationLimitedMessage, [⟨"t", "x", true⟩, ⟨"t", "x", true⟩], 2, true⟩ :
      AgentChatResult).tool_calls.length ≤ 2) ∧
    (⟨iterationLimitedMessage, [⟨"t", "x", true⟩, ⟨"t", "x", true⟩], 2, true⟩ :
      AgentChatResult).iterations =
      (⟨iterationLimitedMessage, [⟨"t", "x", true⟩, ⟨"t", "x", true⟩], 2, true⟩ :
        AgentChatResult).tool_calls.length :=
  ⟨(agent_loop_bounded oneCallClient alwaysOkExec 2 5 _ (fun _ => Nat.le_refl 1) rfl).1,
   (agent_loop_bounded oneCallClient alwaysOkExec 2 5 _ (fun _ => Nat.le_refl 1) rfl).2.1⟩

/-! ## C1 — paths outside every allowed root are denied before any
filesystem effect -/

/-- The path policy denies every request whose resolved path is neither
equal to nor nested under any resolved allowlist entry: with a non-empty
allowlist the allowlist clause fires, and with an empty allowlist the
traversal clause fires on the leading `/` of the resolved path. -/
theorem fsPathPolicy_outside_denied (cfg : FileSystemConfig)
    (cwd : List String) (op : FsOp) (p : String)
    (hout : (cfg.allowed_paths.getD []).all
      (fun a => !(pathUnder (resolvePath cwd a) (resolvePath cwd p))) = true) :
    exceptOk (fsPathPolicy cfg cwd op p) = false := by
  unfold fsPathPolicy
  by_cases hpe : (p == "") = true
  · rw [if_pos hpe]
    rfl
  · rw [if_neg hpe]
    have hany := any_eq_false_of_all_not _ _ hout
    by_cases hne : (cfg.allowed_paths.getD []).isEmpty = true
    case neg =>
      have hne2 : (cfg.allowed_paths.getD []).isEmpty = false :=
        Bool.eq_false_iff.mpr hne
      have hc1 : (!(cfg.allowed_paths.getD []).isEmpty &&
          !((cfg.allowed_paths.getD []).any
            (fun a => pathUnder (resolvePath cwd a) (resolvePath cwd p)))) = true := by
        rw [hne2, hany]
        rfl
      rw [if_pos hc1]
      rfl
    case pos =>
      have hal : cfg.allowed_paths.getD [] = [] := by
        cases hl : cfg.allowed_paths.getD [] with
        | nil => rfl
        | cons x xs => rw [hl] at hne; cases hne
      have hc1 : (!(cfg.allowed_paths.getD []).isEmpty &&
          !((cfg.allowed_paths.getD []).any
            (fun a => pathUnder (resolvePath cwd a) (resolvePath cwd p)))) = false := by
        rw [hne]
        rfl
      rw [if_neg (by rw [hc1]; exact Bool.false_ne_true)]
      by_cases hext : extensionBlocked cfg op (resolvePath cwd p) = true
      · rw [if_pos hext]
        rfl
      · rw [if_neg hext]
        cases hf : cfg.blocked_patterns.find?
            (fun pat => strContains (resolvePath cwd p) pat) with
        | some pat => rfl
        | none =>
          have hc2 : ((strContains (resolvePath cwd p) ".." ||
              strStartsWith (resolvePath cwd p) "/") &&
              !((cfg.allowed_paths.getD []).any
                (fun a => strStartsWith (resolvePath cwd p) a))) = true := by
            rw [hal, resolvePath_startsWith_root]
            simp
          rw [if_pos hc2]
          rfl

/-- C1: for every filesystem request whose path, after canonical
resolution, is neither equal to nor nested under any (resolved) entry of
the allowed-paths allowlist — `..`-laden raw paths included, since the
hypothesis constrains the resolved form — the security check denies, the
full invocation fails, and the filesystem is left exactly as it was. -/
theorem fs_security_denies_outside_allowlist (cfg : FileSystemConfig)
    (cwd : List String) (params : FsParams) (fs : Fs) (stats : ToolStats)
    (now duration : Nat)
    (hout : (cfg.allowed_paths.getD []).all
      (fun a => !(pathUnder (resolvePath cwd a)
        (resolvePath cwd (params.path.getD "")))) = true) :
    exceptOk (fsSecurityCheck cfg cwd params) = false ∧
    (fsToolExecute cfg cwd now stats fs params duration).1.success = false ∧
    (fsToolExecute cfg cwd now stats fs params duration).2.1 = fs := by
  have hsec : exceptOk (fsSecurityCheck cfg cwd params) = false := by
    unfold fsSecurityCheck
    rw [baseSecurityCheck_ok]
    exact fsPathPolicy_outside_denied cfg cwd params.operation
      (params.path.getD "") hout
  have hmap : exceptOk ((fsSecurityCheck cfg cwd params).mapError
      FsSecurityError.message) = false := by
    rw [exceptOk_mapError]
    exact hsec
  have hdenied := BaseToolExecute_security_denied cfg.toToolConfig "file_system"
    (fun q => (fsSecurityCheck cfg cwd q).mapError FsSecurityError.message)
    (fsRun cfg cwd now) stats fs params duration hmap
  exact ⟨hsec, hdenied.1, hdenied.2⟩

/-- C1 witness: with allowlist `["/work"]`, the traversal request
`read("/work/../etc/passwd")` (resolving to `/etc/passwd`, outside the
root) is denied, fails, and leaves the filesystem unchanged. -/
theorem fs_security_denies_outside_allowlist_witness :
    exceptOk (fsSecurityCheck workConfig []
      { operation := FsOp.read, path := some "/work/../etc/passwd" }) = false ∧
    (fsToolExecute workConfig [] 0 {} [("/etc/passwd", "secret")]
      { operation := FsOp.read, path := some "/work/../etc/passwd" } 5).1.success = false ∧
    (fsToolExecute workConfig [] 0 {} [("/etc/passwd", "secret")]
      { operation := FsOp.read, path := some "/work/../etc/passwd" } 5).2.1 =
      [("/etc/passwd", "secret")] :=
  fs_security_denies_outside_allowlist workConfig []
    { operation := FsOp.read, path := some "/work/../etc/passwd" }
    [("/etc/passwd", "secret")] {} 0 5 (by decide)

/-! ## C5 — a ToolResult is success-with-payload or failure-with-error,
never both or neither -/

/-- Every rendered security denial message is non-empty. -/
theorem fsSecurityError_message_ne_empty (e : FsSecurityError) :
    e.message ≠ "" := by
  cases e with
  | pathRequired => decide
  | notAllowed p allowed => exact append_ne_empty_left _ _ (by decide)
  | extensionNotAllowed sfx => exact append_ne_empty_left _ _ (by decide)
  | blockedPattern pat => exact append_ne_empty_left _ _ (by decide)
  | traversalDetected => decide

/-- Every error message produced by a filesystem operation body is
non-empty. -/
theorem fsRunOp_error_ne_empty (cfg : FileSystemConfig) (cwd : List String)
    (now : Nat) (op : FsOp) (p rp : String) (content? destination? : Option String)
    (fs : Fs) (m : String)
    (h : fsRunOp cfg cwd now op p rp content? destination? fs = Except.error m) :
    m ≠ "" := by
  unfold fsRunOp at h
  repeat' split at h
  all_goals
    first
      | (cases h; exact append_ne_empty_left _ _ (by decide))
      | (cases h; decide)
      | cases h

/-- The error channel of the mapped filesystem security check only
carries non-empty messages. -/
theorem fsSecurityCheck_error_ne_empty (cfg : FileSystemConfig)
    (cwd : List String) (q : FsParams) (m : String)
    (h : (fsSecurityCheck cfg cwd q).mapError FsSecurityError.message =
      Except.error m) : m ≠ "" := by
  obtain ⟨e0, _, hm⟩ := mapError_eq_error _ _ _ h
  rw [hm]
  exact fsSecurityError_message_ne_empty e0

/-- The filesystem run function only reports non-empty error messages. -/
theorem fsRun_error_ne_empty (cfg : FileSystemConfig) (cwd : List String)
    (now : Nat) (params : FsParams) (fs : Fs) (m : String)
    (h : fsRun cfg cwd now params fs = Except.error m) : m ≠ "" := by
  unfold fsRun at h
  exact fsRunOp_error_ne_empty cfg cwd now params.operation _ _ _ _ fs m h

/-- C5: every `ToolResult` the engine produces satisfies the exclusivity
invariant — `success = true` comes with no error and a present payload,
and `success = false` comes with a non-empty error message — provided the
security check and the operation bodies only raise non-empty messages (as
the filesystem tool's do). -/
theorem toolresult_success_error_exclusive {π σ ρ : Type}
    (cfg : ToolConfig) (toolName : String)
    (securityCheck : π → Except String Unit) (run : π → σ → Except String (ρ × σ))
    (stats : ToolStats) (st : σ) (params : π) (duration : Nat)
    (r : ToolResult ρ)
    (hr : r = (BaseToolExecute cfg toolName securityCheck run stats st params duration).1)
    (hsec : ∀ m, securityCheck params = Except.error m → m ≠ "")
    (hrun : ∀ m, run params st = Except.error m → m ≠ "") :
    (r.success = true → r.error = none ∧ r.result.isSome = true) ∧
    (r.success = false → ∃ m, r.error = some m ∧ m ≠ "") := by
  subst hr
  unfold BaseToolExecute
  cases he : cfg.enabled with
  | false =>
    refine ⟨fun hs => ?_, fun _ => ?_⟩
    · cases hs
    · exact ⟨"Tool " ++ (toolName ++ " is disabled"), rfl,
        append_ne_empty_left _ _ (by decide)⟩
  | true =>
    cases hsc : securityCheck params with
    | error msg =>
      refine ⟨fun hs => ?_, fun _ => ⟨msg, rfl, hsec msg hsc⟩⟩
      cases hs
    | ok v =>
      cases hrn : run params st with
      | error msg =>
        refine ⟨fun hs => ?_, fun _ => ⟨msg, rfl, hrun msg hrn⟩⟩
        cases hs
      | ok pr =>
        obtain ⟨payload, st2⟩ := pr
        refine ⟨fun _ => ⟨rfl, rfl⟩, fun hs => ?_⟩
        cases hs

/-- C5 witness: a concrete successful write has no error and a payload,
via the exclusivity theorem instantiated at the filesystem tool. -/
theorem toolresult_success_error_exclusive_witness :
    (fsToolExecute workConfig [] 0 {} []
      { operation := FsOp.write, path := some "/work/notes.txt",
        content := some "hello" } 3).1.error = none ∧
    (fsToolExecute workConfig [] 0 {} []
      { operation := FsOp.write, path := some "/work/notes.txt",
        content := some "hello" } 3).1.result.isSome = true := by
  have h := toolresult_success_error_exclusive workConfig.toToolConfig "file_system"
    (fun q => (fsSecurityCheck workConfig [] q).mapError FsSecurityError.message)
    (fsRun workConfig [] 0) {} []
    { operation := FsOp.write, path := some "/work/notes.txt",
      content := some "hello" } 3
    (fsToolExecute workConfig [] 0 {} []
      { operation := FsOp.write, path := some "/work/notes.txt",
        content := some "hello" } 3).1 rfl
    (fun m hm => fsSecurityCheck_error_ne_empty workConfig []
      { operation := FsOp.write, path := some "/work/notes.txt",
        content := some "hello" } m hm)
    (fun m hm => fsRun_error_ne_empty workConfig [] 0
      { operation := FsOp.write, path := some "/work/notes.txt",
        content := some "hello" } [] m hm)
  exact ⟨(h.1 rfl).1, (h.1 rfl).2⟩

/-! ## C7 — the write/read round-trip holds only within the full path
policy and the size limit -/

/-- C7 counterexample: `/work/tool.exe` is nested under the allowed root
`/work`, yet `write` is denied by the extension filter and the subsequent
`read` fails — so the round-trip law as stated (for all paths under an
allowed root) is false. -/
theorem fs_roundtrip_blocked_extension_cex :
    pathUnder "/work" (resolvePath [] "/work/tool.exe") = true ∧
    (fsToolExecute workConfig [] 0 {} []
      { operation := FsOp.write, path := some "/work/tool.exe",
        content := some "x" } 3).1.success = false ∧
    (fsToolExecute workConfig [] 1 {}
      (fsToolExecute workConfig [] 0 {} []
        { operation := FsOp.write, path := some "/work/tool.exe",
          content := some "x" } 3).2.1
      { operation := FsOp.read, path := some "/work/tool.exe" } 4).1.success = false ∧
    (fsToolExecute workConfig [] 1 {}
      (fsToolExecute workConfig [] 0 {} []
        { operation := FsOp.write, path := some "/work/tool.exe",
          content := some "x" } 3).2.1
      { operation := FsOp.read, path := some "/work/tool.exe" } 4).1.result = none := by
  refine ⟨rfl, rfl, rfl, rfl⟩

/-- The extension clause treats `read` and `write` identically. -/
theorem extensionBlocked_read_eq_write (cfg : FileSystemConfig) (rp : String) :
    extensionBlocked cfg FsOp.read rp = extensionBlocked cfg FsOp.write rp := rfl

/-- The path policy allows a request whose resolved path sits under a
canonical allowlist entry, passes the extension filter, and matches no
blocked pattern. -/
theorem fsPathPolicy_allows (cfg : FileSystemConfig) (cwd : List String)
    (op : FsOp) (p a : String)
    (hne : (p == "") = false)
    (hmem : a ∈ cfg.allowed_paths.getD [])
    (hcanon : resolvePath cwd a = a)
    (hunder : pathUnder a (resolvePath cwd p) = true)
    (hext : extensionBlocked cfg op (resolvePath cwd p) = false)
    (hpat : cfg.blocked_patterns.all
      (fun pat => !(strContains (resolvePath cwd p) pat)) = true) :
    fsPathPolicy cfg cwd op p = Except.ok () := by
  unfold fsPathPolicy
  rw [if_neg (by rw [hne]; exact Bool.false_ne_true)]
  have hany : (cfg.allowed_paths.getD []).any
      (fun x => pathUnder (resolvePath cwd x) (resolvePath cwd p)) = true :=
    List.any_eq_true.mpr ⟨a, hmem, by rw [hcanon]; exact hunder⟩
  have hc1 : (!(cfg.allowed_paths.getD []).isEmpty &&
      !((cfg.allowed_paths.getD []).any
        (fun x => pathUnder (resolvePath cwd x) (resolvePath cwd p)))) = false := by
    rw [hany]
    simp
  rw [if_neg (by rw [hc1]; exact Bool.false_ne_true)]
  rw [if_neg (by rw [hext]; exact Bool.false_ne_true)]
  have hfind : cfg.blocked_patterns.find?
      (fun pat => strContains (resolvePath cwd p) pat) = none := by
    rw [List.find?_eq_none]
    intro x hx
    have hx2 := List.all_eq_true.mp hpat x hx
    simpa using hx2
  rw [hfind]
  have hstart : (cfg.allowed_paths.getD []).any
      (fun x => strStartsWith (resolvePath cwd p) x) = true :=
    List.any_eq_true.mpr ⟨a, hmem, strStartsWith_of_pathUnder a _ hunder⟩
  have hc2 : ((strContains (resolvePath cwd p) ".." ||
      strStartsWith (resolvePath cwd p) "/") &&
      !((cfg.allowed_paths.getD []).any
        (fun x => strStartsWith (resolvePath cwd p) x))) = false := by
    rw [hstart]
    simp
  rw [if_neg (by rw [hc2]; exact Bool.false_ne_true)]

/-- Lift the path-policy pass to the whole security check. -/
theorem fsSecurityCheck_allows (cfg : FileSystemConfig) (cwd : List String)
    (params : FsParams) (p a : String)
    (hp : params.path = some p)
    (hne : (p == "") = false)
    (hmem : a ∈ cfg.allowed_paths.getD [])
    (hcanon : resolvePath cwd a = a)
    (hunder : pathUnder a (resolvePath cwd p) = true)
    (hext : extensionBlocked cfg params.operation (resolvePath cwd p) = false)
    (hpat : cfg.blocked_patterns.all
      (fun pat => !(strContains (resolvePath cwd p) pat)) = true) :
    fsSecurityCheck cfg cwd params = Except.ok () := by
  unfold fsSecurityCheck
  rw [baseSecurityCheck_ok, hp]
  exact fsPathPolicy_allows cfg cwd params.operation p a hne hmem hcanon hunder hext hpat

/-- Engine evaluation on the happy path: enabled, security pass, body
success. -/
theorem BaseToolExecute_run_ok {π σ ρ : Type}
    (cfg : ToolConfig) (toolName : String)
    (securityCheck : π → Except String Unit) (run : π → σ → Except String (ρ × σ))
    (stats : ToolStats) (st : σ) (params : π) (duration : Nat)
    (payload : ρ) (st2 : σ)
    (he : cfg.enabled = true)
    (hs : securityCheck params = Except.ok ())
    (hb : run params st = Except.ok (payload, st2)) :
    BaseToolExecute cfg toolName securityCheck run stats st params duration =
      ({ success := true, result := some payload, error := none,
         execution_time := duration }, st2,
       { execution_count := stats.execution_count + 1,
         success_count := stats.success_count + 1,
         error_count := stats.error_count,
         total_execution_time := stats.total_execution_time + duration }) := by
  unfold BaseToolExecute
  rw [he, hs, hb]
  rfl

/-- C7 as amended: for a non-empty path `p` resolving under a canonical
allowlist entry, passing the extension filter, matching no blocked
pattern, with the tool enabled and the content within `max_file_size`,
`write(p, content)` succeeds and a subsequent `read(p)` returns exactly
`content`. -/
theorem fs_write_read_roundtrip (cfg : FileSystemConfig) (cwd : List String)
    (now1 now2 d1 d2 : Nat) (stats1 stats2 : ToolStats) (fs : Fs)
    (p content a : String)
    (henabled : cfg.enabled = true)
    (hne : (p == "") = false)
    (hmem : a ∈ cfg.allowed_paths.getD [])
    (hcanon : resolvePath cwd a = a)
    (hunder : pathUnder a (resolvePath cwd p) = true)
    (hext : extensionBlocked cfg FsOp.write (resolvePath cwd p) = false)
    (hpat : cfg.blocked_patterns.all
      (fun pat => !(strContains (resolvePath cwd p) pat)) = true)
    (hsize : content.length ≤ cfg.max_file_size) :
    (fsToolExecute cfg cwd now1 stats1 fs
      { operation := FsOp.write, path := some p, content := some content } d1).1.success
        = true ∧
    (fsToolExecute cfg cwd now2 stats2
      (fsToolExecute cfg cwd now1 stats1 fs
        { operation := FsOp.write, path := some p, content := some content } d1).2.1
      { operation := FsOp.read, path := some p } d2).1.success = true ∧
    (fsToolExecute cfg cwd now2 stats2
      (fsToolExecute cfg cwd now1 stats1 fs
        { operation := FsOp.write, path := some p, content := some content } d1).2.1
      { operation := FsOp.read, path := some p } d2).1.result =
      some (FsPayload.readResult content content.length) := by
  have hsecw : fsSecurityCheck cfg cwd
      { operation := FsOp.write, path := some p, content := some content } =
      Except.ok () :=
    fsSecurityCheck_allows cfg cwd _ p a rfl hne hmem hcanon hunder hext hpat
  have hsecr : fsSecurityCheck cfg cwd
      { operation := FsOp.read, path := some p } = Except.ok () :=
    fsSecurityCheck_allows cfg cwd _ p a rfl hne hmem hcanon hunder
      (by rw [extensionBlocked_read_eq_write]; exact hext) hpat
  have hrunw : fsRun cfg cwd now1
      { operation := FsOp.write, path := some p, content := some content } fs =
      Except.ok (FsPayload.writeResult (resolvePath cwd p) content.length,
        Fs.insert
          (match Fs.find fs (resolvePath cwd p) with
           | some old =>
             if cfg.enable_backup then
               fs.insert (backupDestination cfg cwd now1 p) old
             else fs
           | none => fs)
          (resolvePath cwd p) content) := by
    rfl
  have hW : fsToolExecute cfg cwd now1 stats1 fs
      { operation := FsOp.write, path := some p, content := some content } d1 =
      ({ success := true,
         result := some (FsPayload.writeResult (resolvePath cwd p) content.length),
         error := none, execution_time := d1 },
       Fs.insert
         (match Fs.find fs (resolvePath cwd p) with
          | some old =>
            if cfg.enable_backup then
              fs.insert (backupDestination cfg cwd now1 p) old
            else fs
          | none => fs)
         (resolvePath cwd p) content,
       { execution_count := stats1.execution_count + 1,
         success_count := stats1.success_count + 1,
         error_count := stats1.error_count,
         total_execution_time := stats1.total_execution_time + d1 }) :=
    BaseToolExecute_run_ok cfg.toToolConfig "file_system" _ _ stats1 fs _ d1 _ _
      henabled (by rw [hsecw]; rfl) hrunw
  rw [hW]
  have hfind : Fs.find
      (Fs.insert
        (match Fs.find fs (resolvePath cwd p) with
         | some old =>
           if cfg.enable_backup then
             fs.insert (backupDestination cfg cwd now1 p) old
           else fs
         | none => fs)
        (resolvePath cwd p) content)
      (resolvePath cwd p) = some content := Fs.find_insert _ _ _
  have hrunr : fsRun cfg cwd now2 { operation := FsOp.read, path := some p }
      (Fs.insert
        (match Fs.find fs (resolvePath cwd p) with
         | some old =>
           if cfg.enable_backup then
             fs.insert (backupDestination cfg cwd now1 p) old
           else fs
         | none => fs)
        (resolvePath cwd p) content) =
      Except.ok (FsPayload.readResult content content.length,
        Fs.insert
          (match Fs.find fs (resolvePath cwd p) with
           | some old =>
             if cfg.enable_backup then
               fs.insert (backupDestination cfg cwd now1 p) old
             else fs
           | none => fs)
          (resolvePath cwd p) content) := by
    unfold fsRun fsRunOp
    simp only [Option.getD_some, hfind]
    rw [if_neg (by rw [Nat.not_lt]; exact hsize)]
  have hR := BaseToolExecute_run_ok cfg.toToolConfig "file_system"
    (fun q => (fsSecurityCheck cfg cwd q).mapError FsSecurityError.message)
    (fsRun cfg cwd now2) stats2 _ { operation := FsOp.read, path := some p } d2 _ _
    henabled (by simp only [hsecr]; rfl) hrunr
  rw [show fsToolExecute cfg cwd now2 stats2
      (Fs.insert
        (match Fs.find fs (resolvePath cwd p) with
         | some old =>
           if cfg.enable_backup then
             fs.insert (backupDestination cfg cwd now1 p) old
           else fs
         | none => fs)
        (resolvePath cwd p) content)
      { operation := FsOp.read, path := some p } d2 =
      ({ success := true,
         result := some (FsPayload.readResult content content.length),
         error := none, execution_time := d2 },
       Fs.insert
         (match Fs.find fs (resolvePath cwd p) with
          | some old =>
            if cfg.enable_backup then
              fs.insert (backupDestination cfg cwd now1 p) old
            else fs
          | none => fs)
         (resolvePath cwd p) content,
       { execution_count := stats2.execution_count + 1,
         success_count := stats2.success_count + 1,
         error_count := stats2.error_count,
         total_execution_time := stats2.total_execution_time + d2 }) from hR]
  exact ⟨rfl, rfl, rfl⟩

/-- C7 witness: the spec scenario — allowlist `["/work"]`,
`write("/work/notes.txt", "hello")` succeeds and the subsequent `read`
returns `"hello"` (size 5). -/
theorem fs_write_read_roundtrip_witness :
    (fsToolExecute workConfig [] 0 {} []
      { operation := FsOp.write, path := some "/work/notes.txt",
        content := some "hello" } 3).1.success = true ∧
    (fsToolExecute workConfig [] 1 {}
      (fsToolExecute workConfig [] 0 {} []
        { operation := FsOp.write, path := some "/work/notes.txt",
          content := some "hello" } 3).2.1
      { operation := FsOp.read, path := some "/work/notes.txt" } 4).1.success = true ∧
    (fsToolExecute workConfig [] 1 {}
      (fsToolExecute workConfig [] 0 {} []
        { operation := FsOp.write, path := some "/work/notes.txt",
          content := some "hello" } 3).2.1
      { operation := FsOp.read, path := some "/work/notes.txt" } 4).1.result =
      some (FsPayload.readResult "hello" "hello".length) :=
  fs_write_read_roundtrip workConfig [] 0 1 3 4 {} {} [] "/work/notes.txt"
    "hello" "/work" rfl rfl (by decide) (by decide) (by decide) (by decide)
    (by decide) (by decide)

/-! ## C6 (amended) — every denial message identifies the failing rule;
the `..` scenario is denied with the outside-allowlist reason -/

/-- The reason class a denial belongs to (the rule that failed). -/
def FsSecurityError.rule : FsSecurityError → String
  | FsSecurityError.pathRequired => "path-required"
  | FsSecurityError.notAllowed _ _ => "outside-allowlist"
  | FsSecurityError.extensionNotAllowed _ => "blocked-extension"
  | FsSecurityError.blockedPattern _ => "blocked-pattern"
  | FsSecurityError.traversalDetected => "traversal"

/-- Decode the failing rule from a rendered denial message alone: the
five message shapes begin with five pairwise-distinct six-character
prefixes, whatever their path/pattern payloads are. -/
def ruleOfMessage (m : String) : Option String :=
  if m.data.take 6 == "Path i".data then some "path-required"
  else if m.data.take 6 == "Path n".data then some "outside-allowlist"
  else if m.data.take 6 == "File e".data then some "blocked-extension"
  else if m.data.take 6 == "Path c".data then some "blocked-pattern"
  else if m.data.take 6 == "Direct".data then some "traversal"
  else none

/-- String append concatenates the underlying character lists. -/
theorem strData_append (s t : String) : (s ++ t).data = s.data ++ t.data := by
  obtain ⟨l⟩ := s
  obtain ⟨m⟩ := t
  rfl

/-- Taking no more than the left part of an append stays in the left
part. -/
theorem take_append_left {α : Type} (l1 l2 : List α) (n : Nat)
    (h : n ≤ l1.length) : (l1 ++ l2).take n = l1.take n :=
  List.take_append_of_le_length h

/-- Each denial's rendered message decodes back to exactly its rule
class. -/
theorem ruleOfMessage_message (e : FsSecurityError) :
    ruleOfMessage e.message = some e.rule := by
  cases e with
  | pathRequired => rfl
  | notAllowed p allowed =>
    have h1 : (FsSecurityError.notAllowed p allowed).message.data.take 6 =
        "Path n".data := by
      simp only [FsSecurityError.message, strData_append]
      rw [take_append_left "Path not in allowed directories: ".data _ 6 (by decide)]
      decide
    unfold ruleOfMessage
    simp only [h1]
    rfl
  | extensionNotAllowed sfx =>
    have h1 : (FsSecurityError.extensionNotAllowed sfx).message.data.take 6 =
        "File e".data := by
      simp only [FsSecurityError.message, strData_append]
      rw [take_append_left "File extension not allowed: ".data _ 6 (by decide)]
      decide
    unfold ruleOfMessage
    simp only [h1]
    rfl
  | blockedPattern pat =>
    have h1 : (FsSecurityError.blockedPattern pat).message.data.take 6 =
        "Path c".data := by
      simp only [FsSecurityError.message, strData_append]
      rw [take_append_left "Path contains blocked pattern: ".data _ 6 (by decide)]
      decide
    unfold ruleOfMessage
    simp only [h1]
    rfl
  | traversalDetected => rfl

/-- C6 as amended: every security denial carries a human-readable,
non-empty reason identifying which rule failed — the rendered message
alone determines the rule class (path-required vs outside-allowlist vs
blocked-extension vs blocked-pattern vs traversal); and in the spec
scenario, with allowlist `["/work"]`, the request
`read("/work/../etc/passwd")` is denied with the outside-allowlist
reason, not a traversal reason, because the raw path is resolved before
the clauses are evaluated, so the `..` segments are gone by then. -/
theorem fs_denial_reason_identifies_rule :
    (∀ e : FsSecurityError,
      (e.message == "") = false ∧ ruleOfMessage e.message = some e.rule) ∧
    fsSecurityCheck workConfig []
      { operation := FsOp.read, path := some "/work/../etc/passwd" } =
      Except.error (FsSecurityError.notAllowed "/work/../etc/passwd" ["/work"]) ∧
    (FsSecurityError.notAllowed "/work/../etc/passwd" ["/work"]).rule =
      "outside-allowlist" := by
  refine ⟨fun e => ⟨?_, ruleOfMessage_message e⟩, rfl, rfl⟩
  exact beq_eq_false_iff_ne.mpr (fsSecurityError_message_ne_empty e)

end LocalAIAgent
